import Mathlib

/-!
t8code, `example/basic/basic.c`: adapt callbacks and partition tables

A shallow embedding of the decision callbacks `t8_basic_adapt` and
`t8_basic_adapt_cse`, of the tree range computed in `t8_basic_partitioned`
and of the offset table filled in `t8_basic_partition`, followed by the
properties of these functions.

Conventions of the embedding.

* Values of the C types `int`, `int8_t`, `t8_locidx_t` and `t8_gloidx_t` are
  embedded as `Int`.  The arithmetic of `t8_basic_partitioned`, whose products
  grow with the number of processes, is that of a 32 bit `int`: every result
  is reduced into `int_range` by `wrap_int`, two's complement wrap-around.
  The callbacks only compare levels, tree ids and coordinates and form
  `maxlevel - level + 1`, which no element of a scheme takes out of range.
* The C operators `/` and `%` truncate towards zero: `Int.tdiv`, `Int.tmod`.
* Calls into the element scheme, the forest and the coarse mesh
  (`t8_element_level`, `t8_element_maxlevel`, `t8_element_vertex_coords`,
  `t8_element_root_len`, `t8_cmesh_get_global_id`, `t8_forest_get_user_data`,
  `t8_cmesh_get_num_trees`) and to `rand` are not part of the file; the value
  each call returns is an argument of the embedded function.
* `T8_ASSERT` is compiled out unless debugging is enabled; the asserted
  condition is kept as the predicate `t8_assert_num_elements` and is not a
  guard of the embedded functions.
* Memory obtained from `SC_SHMEM_ALLOC` is uninitialised: a cell is `none`
  until it is written, and an access outside the allocation is a fault.
-/

set_option linter.unusedVariables false

namespace T8Basic

/-! ## Decision callbacks -/

/-- The value of a C comparison used as an `int`: 1 when it holds, else 0. -/
def c_bool (p : Prop) [Decidable p] : Int := if p then 1 else 0

/-- The C expression `1 << k` on `int`, for a shift count `k` that is not
negative (a negative count has no defined value in C; it is read as 0 here). -/
def c_shl1 (k : Int) : Int := 2 ^ k.toNat

/-- The condition of the `T8_ASSERT` at the head of both callbacks:
`num_elements == 1 || num_elements == t8_eclass_num_children[ts->eclass]`. -/
def t8_assert_num_elements (num_elements num_children : Int) : Prop :=
  num_elements = 1 ∨ num_elements = num_children

instance (num_elements num_children : Int) :
    Decidable (t8_assert_num_elements num_elements num_children) := by
  unfold t8_assert_num_elements; infer_instance

/-- The callback `t8_basic_adapt`.  `level` is `t8_element_level (ts, elements[0])`
and `rand_value` is the value returned by the call `rand ()`, which is never
negative.  The block that would coarsen a family is disabled by `#if 0`. -/
def t8_basic_adapt (num_elements : Int) (level : Int) (rand_value : Nat) : Int :=
  if level < 4 then
    Int.tmod (rand_value : Int) 2
  else
    0

/-- The callback `t8_basic_adapt_cse`.
`refine_this_tree` is the user data of the forest, `level` the level of
`elements[0]`, `glo_tree` the global id of the current tree, `maxlevel` the
value of `t8_element_maxlevel (ts)`, `anchor0` the entry `anchor[0]` filled by
`t8_element_vertex_coords (ts, elements[0], 1, anchor)` and `root_len` the
value of `t8_element_root_len (ts, elements[0])`. -/
def t8_basic_adapt_cse (num_elements : Int) (level : Int)
    (glo_tree refine_this_tree : Int) (maxlevel : Int) (anchor0 root_len : Int) : Int :=
  -- `if (num_elements > 1 && glo_tree != refine_this_tree) { if (level > 2) return -1; }`
  if num_elements > 1 ∧ glo_tree ≠ refine_this_tree ∧ level > 2 then
    -1
  else if glo_tree = refine_this_tree then
    if anchor0 > c_shl1 (maxlevel - level + 1) ∧ anchor0 < root_len then
      c_bool (level < 4)
    else
      c_bool (level < 3)
  else if level < 2 then
    -- The rest has max level 2
    1
  else
    0

/-! ## The tree range of `t8_basic_partitioned` -/

/-- The values a 32 bit `int` holds. -/
def int_range (x : Int) : Prop := -2147483648 ≤ x ∧ x ≤ 2147483647

instance (x : Int) : Decidable (int_range x) := by
  unfold int_range; infer_instance

/-- The value a 32 bit `int` holds after an operation whose exact result is
`x`: `x` itself inside `int_range`, else `x` modulo `2^32` taken in
`int_range`. -/
def wrap_int (x : Int) : Int := (x + 2147483648) % 4294967296 - 2147483648

/-- The C operator `+` on `int`. -/
def int_add (a b : Int) : Int := wrap_int (a + b)

/-- The C operator `-` on `int`. -/
def int_sub (a b : Int) : Int := wrap_int (a - b)

/-- The C operator `*` on `int`. -/
def int_mul (a b : Int) : Int := wrap_int (a * b)

/-- The C operator `/` on `int`, which truncates towards zero. -/
def int_div (a b : Int) : Int := wrap_int (Int.tdiv a b)

/-- The constant `num_trees` of `t8_basic_partitioned`. -/
def num_trees : Int := 11

/-- The pair `(first_tree, last_tree)` that `t8_basic_partitioned` computes
from the rank and the size of the communicator and passes to
`t8_cmesh_set_partition_range`. -/
def t8_basic_partitioned (mpirank mpisize : Int) : Int × Int :=
  let first_tree := int_div (int_mul mpirank num_trees) mpisize
  let last_tree := int_sub (int_div (int_mul (int_add mpirank 1) num_trees) mpisize) 1
  (first_tree, last_tree)

/-- Tree `t` lies in the range `[first_tree, last_tree]` of rank `mpirank`. -/
def in_tree_range (mpirank mpisize t : Int) : Prop :=
  (t8_basic_partitioned mpirank mpisize).1 ≤ t ∧ t ≤ (t8_basic_partitioned mpirank mpisize).2

instance (mpirank mpisize t : Int) : Decidable (in_tree_range mpirank mpisize t) := by
  unfold in_tree_range; infer_instance

/-! ## The offset table of `t8_basic_partition` -/

/-- The memory block behind `offsets`: one cell per entry, `none` while the
cell has not been written. -/
abbrev Offsets := List (Option Int)

/-- The allocation `SC_SHMEM_ALLOC (t8_gloidx_t, n, comm)`: `n` cells, none of
them initialised. -/
def SC_SHMEM_ALLOC (n : Nat) : Offsets := List.replicate n none

/-- The assignment `offsets[i] = v`; `none` when `i` is outside the block. -/
def offsets_store (offsets : Offsets) (i : Nat) (v : Int) : Option Offsets :=
  if i < offsets.length then some (offsets.set i (some v)) else none

/-- The read `offsets[i]`; `none` when `i` is outside the block or the cell
was never written. -/
def offsets_load (offsets : Offsets) (i : Nat) : Option Int :=
  match offsets.get? i with
  | some (some v) => some v
  | _ => none

/-- The loop `for (iproc = 3; iproc <= mpisize; iproc++) offsets[iproc] = offsets[2];`
entered with the counter at `iproc`. -/
def t8_basic_partition_loop (mpisize : Nat) (iproc : Nat) (offsets : Offsets) :
    Option Offsets :=
  if iproc ≤ mpisize then
    match offsets_load offsets 2 with
    | none => none
    | some v =>
      match offsets_store offsets iproc v with
      | none => none
      | some offsets1 => t8_basic_partition_loop mpisize (iproc + 1) offsets1
  else
    some offsets
termination_by mpisize + 1 - iproc

/-- The table `offsets` as `t8_basic_partition` hands it to
`t8_cmesh_set_partition_offsets`, for `mpisize` processes and a coarse mesh of
`cmesh_num_trees` trees (the value of `t8_cmesh_get_num_trees (cmesh)`);
`none` when a store or a load leaves the allocated block. -/
def t8_basic_partition (mpisize : Nat) (cmesh_num_trees : Int) : Option Offsets :=
  match offsets_store (SC_SHMEM_ALLOC (mpisize + 1)) 0 0 with
  | none => none
  | some o0 =>
    match offsets_store o0 1 (Int.tdiv cmesh_num_trees 2) with
    | none => none
    | some o1 =>
      match offsets_store o1 2 cmesh_num_trees with
      | none => none
      | some o2 => t8_basic_partition_loop mpisize 3 o2

/-- The number of trees the table gives to process `r`: the length of
`[offsets[r], offsets[r+1])`, when both entries are there. -/
def offsets_count (offsets : Offsets) (r : Nat) : Option Int :=
  match offsets_load offsets r, offsets_load offsets (r + 1) with
  | some a, some b => some (b - a)
  | _, _ => none

/-! ## Auxiliary facts -/

/-- On a value returned by `rand`, the truncating remainder by 2 is the
remainder of the natural number. -/
theorem rand_mod_two (r : Nat) : Int.tmod (r : Int) 2 = ((r % 2 : Nat) : Int) := by
  rw [Int.tmod_eq_emod (Int.ofNat_nonneg r) (by decide)]
  simp

theorem c_bool_eq_one (p : Prop) [Decidable p] : c_bool p = 1 ↔ p := by
  unfold c_bool; split <;> simp [*]

theorem c_bool_eq_zero (p : Prop) [Decidable p] : c_bool p = 0 ↔ ¬ p := by
  unfold c_bool; split <;> simp [*]

theorem c_bool_ne_neg_one (p : Prop) [Decidable p] : c_bool p ≠ -1 := by
  unfold c_bool; split <;> decide

theorem c_bool_cases (p : Prop) [Decidable p] : c_bool p = 0 ∨ c_bool p = 1 := by
  unfold c_bool; split <;> simp

/-- The three values `t8_basic_adapt` distinguishes, as a function of the
level and the parity of the random value. -/
theorem t8_basic_adapt_value (num_elements level : Int) (rand_value : Nat) :
    t8_basic_adapt num_elements level rand_value =
      if level < 4 then ((rand_value % 2 : Nat) : Int) else 0 := by
  unfold t8_basic_adapt
  rw [rand_mod_two]

/-- On the tree given as user data `t8_basic_adapt_cse` returns the value of
one of the two comparisons `level < 4`, `level < 3`. -/
theorem t8_basic_adapt_cse_same_tree (num_elements level tree maxlevel anchor0 root_len : Int) :
    t8_basic_adapt_cse num_elements level tree tree maxlevel anchor0 root_len =
      if anchor0 > c_shl1 (maxlevel - level + 1) ∧ anchor0 < root_len then c_bool (level < 4)
      else c_bool (level < 3) := by
  unfold t8_basic_adapt_cse
  simp

/-- On every other tree `t8_basic_adapt_cse` looks at `num_elements` and
`level` only. -/
theorem t8_basic_adapt_cse_other_tree
    (num_elements level glo_tree refine_this_tree maxlevel anchor0 root_len : Int)
    (h : glo_tree ≠ refine_this_tree) :
    t8_basic_adapt_cse num_elements level glo_tree refine_this_tree maxlevel anchor0 root_len =
      if num_elements > 1 ∧ level > 2 then -1 else if level < 2 then 1 else 0 := by
  unfold t8_basic_adapt_cse
  simp [h]

/-! ## The callbacks -/

/-- Claim C1, as the code has it: below level 4 `t8_basic_adapt` returns
`rand () % 2`, so it returns refine (1) exactly when the level is below 4 and
the random value is odd, and keep (0) exactly when the level is 4 or more or
the random value is even; `num_elements` plays no part. -/
theorem t8_basic_adapt_refines_at_random (num_elements level : Int) (rand_value : Nat) :
    (t8_basic_adapt num_elements level rand_value = 1 ↔ level < 4 ∧ rand_value % 2 = 1) ∧
    (t8_basic_adapt num_elements level rand_value = 0 ↔ 4 ≤ level ∨ rand_value % 2 = 0) := by
  rw [t8_basic_adapt_value]
  split <;> constructor <;> omega

/-- Claim C1 fails as stated: at level 2 (below 4) with the random value 2 the
callback `t8_basic_adapt` returns keep (0), not refine (1). -/
theorem t8_basic_adapt_keeps_below_4 :
    (2 : Int) < 4 ∧ t8_basic_adapt 1 2 2 = 0 ∧ t8_basic_adapt 1 2 2 ≠ 1 := by
  decide

/-- Claim C2: an invocation that is not a complete family (`num_elements` at
most 1, in particular `num_elements = 1`) gets coarsen (-1) from neither
`t8_basic_adapt` nor `t8_basic_adapt_cse`, whatever the level, the tree ids,
the vertex coordinate and the random value are; coarsen needs
`num_elements > 1`. -/
theorem single_element_never_coarsened
    (num_elements level glo_tree refine_this_tree maxlevel anchor0 root_len : Int)
    (rand_value : Nat) (h : num_elements ≤ 1) :
    t8_basic_adapt num_elements level rand_value ≠ -1 ∧
    t8_basic_adapt_cse num_elements level glo_tree refine_this_tree maxlevel anchor0 root_len
      ≠ -1 := by
  constructor
  · rw [t8_basic_adapt_value]
    split <;> omega
  · unfold t8_basic_adapt_cse
    split
    · omega
    · split
      · split <;> exact c_bool_ne_neg_one _
      · split <;> decide

/-- Claim C2 at a single element of level 3 on a tree that is not the one
given as user data, where a family would be coarsened. -/
theorem single_element_never_coarsened_witness :
    (1 : Int) ≤ 1 ∧ t8_basic_adapt 1 3 1 ≠ -1 ∧
      t8_basic_adapt_cse 1 3 0 1 29 0 1073741824 ≠ -1 :=
  ⟨by decide, single_element_never_coarsened 1 3 0 1 29 0 1073741824 1 (by decide)⟩

/-- Claim C3 fails as stated: for a family of 8 hexahedra of level 2
`t8_basic_adapt` returns refine (1) when the random value is 1, and for a
family of 4 quadrants of level 1 (`maxlevel = 29`, `root_len = 2^30`, vertex 1
at x-coordinate `2^29`) `t8_basic_adapt_cse` returns refine (1), on a tree
other than the one given as user data and on that tree alike. -/
theorem family_can_be_refined :
    (1 : Int) < 8 ∧ t8_basic_adapt 8 2 1 = 1 ∧
    (1 : Int) < 4 ∧ t8_basic_adapt_cse 4 1 0 1 29 536870912 1073741824 = 1 ∧
      t8_basic_adapt_cse 4 1 1 1 29 536870912 1073741824 = 1 := by
  decide

/-- Claim C3, as the code has it: for a complete family (`num_elements > 1`)
`t8_basic_adapt` returns keep (0) or refine (1), never coarsen, and refine
exactly when the level is below 4 and the random value is odd;
`t8_basic_adapt_cse` returns coarsen (-1), keep (0) or refine (1), coarsen
exactly on a tree other than the one given as user data at a level above 2,
and refine exactly on such a tree below level 2 or on the user data tree below
level 3, or at level 3 with `2^(maxlevel - level + 1) < anchor0 < root_len`. -/
theorem family_decisions
    (num_elements level glo_tree refine_this_tree maxlevel anchor0 root_len : Int)
    (rand_value : Nat) (h : 1 < num_elements) :
    (t8_basic_adapt num_elements level rand_value = 0 ∨
      t8_basic_adapt num_elements level rand_value = 1) ∧
    (t8_basic_adapt num_elements level rand_value = 1 ↔ level < 4 ∧ rand_value % 2 = 1) ∧
    (t8_basic_adapt_cse num_elements level glo_tree refine_this_tree maxlevel anchor0 root_len = -1 ∨
      t8_basic_adapt_cse num_elements level glo_tree refine_this_tree maxlevel anchor0 root_len = 0 ∨
      t8_basic_adapt_cse num_elements level glo_tree refine_this_tree maxlevel anchor0 root_len = 1) ∧
    (t8_basic_adapt_cse num_elements level glo_tree refine_this_tree maxlevel anchor0 root_len = -1
      ↔ glo_tree ≠ refine_this_tree ∧ 2 < level) ∧
    (t8_basic_adapt_cse num_elements level glo_tree refine_this_tree maxlevel anchor0 root_len = 1
      ↔ (glo_tree ≠ refine_this_tree ∧ level < 2) ∨
        (glo_tree = refine_this_tree ∧
          (level < 3 ∨ (level = 3 ∧ (2 : Int) ^ (maxlevel - level + 1).toNat < anchor0 ∧
            anchor0 < root_len)))) := by
  refine ⟨?_, ?_, ?_⟩
  · rw [t8_basic_adapt_value]
    split <;> omega
  · rw [t8_basic_adapt_value]
    split <;> omega
  · by_cases hg : glo_tree = refine_this_tree
    · subst hg
      rw [t8_basic_adapt_cse_same_tree]
      unfold c_shl1
      split
      · rename_i hc
        unfold c_bool
        split <;> simp <;> omega
      · rename_i hc
        unfold c_bool
        split <;> simp <;> omega
    · rw [t8_basic_adapt_cse_other_tree _ _ _ _ _ _ _ hg]
      split
      · simp [hg]; omega
      · split <;> simp [hg] <;> omega

/-- Claim C3, amended, at a family of 8 elements of level 3 on a tree other
than the user data tree. -/
theorem family_decisions_witness :
    (1 : Int) < 8 ∧ (t8_basic_adapt 8 3 1 = 1 ↔ (3 : Int) < 4 ∧ 1 % 2 = 1) ∧
      (t8_basic_adapt_cse 8 3 0 1 29 0 1073741824 = -1 ↔ (0 : Int) ≠ 1 ∧ (2 : Int) < 3) :=
  ⟨by decide,
    (family_decisions 8 3 0 1 29 0 1073741824 1 (by decide)).2.1,
    (family_decisions 8 3 0 1 29 0 1073741824 1 (by decide)).2.2.2.1⟩

/-- Claim C6: on the tree whose global id is the tree id given as user data
`t8_basic_adapt_cse` never returns coarsen (-1); it returns refine (1) exactly
when the level is below 3, or is 3 and the x-coordinate `anchor0` of vertex 1
lies strictly between `2^(maxlevel - level + 1)` and `root_len`, and keep (0)
in every other case; so every element below level 3 is refined. The value
of `num_elements` plays no part. -/
theorem user_data_tree_decision
    (num_elements level glo_tree refine_this_tree maxlevel anchor0 root_len : Int)
    (h : glo_tree = refine_this_tree) :
    t8_basic_adapt_cse num_elements level glo_tree refine_this_tree maxlevel anchor0 root_len
      ≠ -1 ∧
    (t8_basic_adapt_cse num_elements level glo_tree refine_this_tree maxlevel anchor0 root_len = 1
      ↔ level < 3 ∨ (level = 3 ∧ (2 : Int) ^ (maxlevel - level + 1).toNat < anchor0 ∧
          anchor0 < root_len)) ∧
    (t8_basic_adapt_cse num_elements level glo_tree refine_this_tree maxlevel anchor0 root_len = 0
      ↔ ¬ (level < 3 ∨ (level = 3 ∧ (2 : Int) ^ (maxlevel - level + 1).toNat < anchor0 ∧
          anchor0 < root_len))) ∧
    (level < 3 →
      t8_basic_adapt_cse num_elements level glo_tree refine_this_tree maxlevel anchor0 root_len
        = 1) := by
  subst h
  rw [t8_basic_adapt_cse_same_tree]
  unfold c_shl1
  split
  · rename_i hc
    unfold c_bool
    split <;> simp <;> omega
  · rename_i hc
    unfold c_bool
    split <;> simp <;> omega

/-- Claim C6 on tree 1 with user data 1, for a quadrant of level 3 with
`maxlevel = 29` and `root_len = 2^30` whose vertex 1 has x-coordinate
`3 * 2^28`: it is refined. -/
theorem user_data_tree_decision_witness :
    (1 : Int) = 1 ∧ t8_basic_adapt_cse 1 3 1 1 29 805306368 1073741824 = 1 :=
  ⟨rfl, (user_data_tree_decision 1 3 1 1 29 805306368 1073741824 rfl).2.1.mpr
    (Or.inr (by decide))⟩

/-- Claim C7: on a tree whose global id differs from the tree id given as user
data `t8_basic_adapt_cse` returns coarsen (-1) exactly when `num_elements > 1`
and the level is above 2, refine (1) exactly when the level is below 2, and
keep (0) otherwise; the value is the same for all such tree ids, maximal
levels and coordinates, and no element of level 2 or more is refined. -/
theorem other_tree_decision
    (num_elements level glo_tree refine_this_tree maxlevel anchor0 root_len : Int)
    (h : glo_tree ≠ refine_this_tree) :
    (t8_basic_adapt_cse num_elements level glo_tree refine_this_tree maxlevel anchor0 root_len = -1
      ↔ 1 < num_elements ∧ 2 < level) ∧
    (t8_basic_adapt_cse num_elements level glo_tree refine_this_tree maxlevel anchor0 root_len = 1
      ↔ level < 2) ∧
    (t8_basic_adapt_cse num_elements level glo_tree refine_this_tree maxlevel anchor0 root_len = 0
      ↔ ¬ (1 < num_elements ∧ 2 < level) ∧ ¬ level < 2) ∧
    (∀ glo_tree1 refine_this_tree1 maxlevel1 anchor1 root_len1 : Int,
      glo_tree1 ≠ refine_this_tree1 →
      t8_basic_adapt_cse num_elements level glo_tree1 refine_this_tree1 maxlevel1 anchor1 root_len1
        = t8_basic_adapt_cse num_elements level glo_tree refine_this_tree maxlevel anchor0
            root_len) ∧
    (2 ≤ level →
      t8_basic_adapt_cse num_elements level glo_tree refine_this_tree maxlevel anchor0 root_len
        ≠ 1) := by
  refine ⟨?_, ?_, ?_, ?_, ?_⟩
  · rw [t8_basic_adapt_cse_other_tree _ _ _ _ _ _ _ h]
    split
    · simp; omega
    · split <;> simp <;> omega
  · rw [t8_basic_adapt_cse_other_tree _ _ _ _ _ _ _ h]
    split
    · simp; omega
    · split <;> simp <;> omega
  · rw [t8_basic_adapt_cse_other_tree _ _ _ _ _ _ _ h]
    split
    · simp; omega
    · split <;> simp <;> omega
  · intro g1 r1 m1 a1 l1 h1
    rw [t8_basic_adapt_cse_other_tree _ _ _ _ _ _ _ h,
      t8_basic_adapt_cse_other_tree _ _ _ _ _ _ _ h1]
  · intro hl
    rw [t8_basic_adapt_cse_other_tree _ _ _ _ _ _ _ h]
    split
    · decide
    · split
      · omega
      · decide

/-- Claim C7 on tree 0 with user data 1: a family of 4 elements of level 3 is
coarsened and a single element of level 1 is refined. -/
theorem other_tree_decision_witness :
    (0 : Int) ≠ 1 ∧ t8_basic_adapt_cse 4 3 0 1 29 0 1073741824 = -1 ∧
      t8_basic_adapt_cse 1 1 0 1 29 0 1073741824 = 1 :=
  ⟨by decide,
    (other_tree_decision 4 3 0 1 29 0 1073741824 (by decide)).1.mpr (by decide),
    (other_tree_decision 1 1 0 1 29 0 1073741824 (by decide)).2.1.mpr (by decide)⟩

/-! ## The tree range of `t8_basic_partitioned` -/

/-- Inside `int_range` nothing is lost by `wrap_int`. -/
theorem wrap_int_of_int_range (x : Int) (h : int_range x) : wrap_int x = x := by
  unfold int_range at h
  unfold wrap_int
  omega

/-- For a rank `mpirank` of a communicator of at most 195225786 processes no
operation of `t8_basic_partitioned` leaves `int_range`, and the pair is
`((mpirank * 11) / mpisize, ((mpirank + 1) * 11) / mpisize - 1)`. -/
theorem t8_basic_partitioned_exact (mpirank mpisize : Int)
    (hr : 0 ≤ mpirank) (hlt : mpirank < mpisize) (hfit : mpisize ≤ 195225786) :
    t8_basic_partitioned mpirank mpisize
      = (mpirank * 11 / mpisize, (mpirank + 1) * 11 / mpisize - 1) := by
  have a1 : 0 ≤ mpirank * 11 / mpisize := Int.ediv_nonneg (by omega) (by omega)
  have a2 : 0 ≤ (mpirank + 1) * 11 / mpisize := Int.ediv_nonneg (by omega) (by omega)
  have a3 : mpirank * 11 / mpisize ≤ mpirank * 11 := Int.ediv_le_self _ (by omega)
  have a4 : (mpirank + 1) * 11 / mpisize ≤ (mpirank + 1) * 11 := Int.ediv_le_self _ (by omega)
  unfold t8_basic_partitioned num_trees int_sub int_div int_mul int_add
  simp only
  rw [wrap_int_of_int_range (mpirank + 1) (by unfold int_range; omega),
    wrap_int_of_int_range (mpirank * 11) (by unfold int_range; omega),
    wrap_int_of_int_range ((mpirank + 1) * 11) (by unfold int_range; omega),
    Int.tdiv_eq_ediv (by omega) (by omega), Int.tdiv_eq_ediv (by omega) (by omega),
    wrap_int_of_int_range (mpirank * 11 / mpisize) (by unfold int_range; omega),
    wrap_int_of_int_range ((mpirank + 1) * 11 / mpisize) (by unfold int_range; omega),
    wrap_int_of_int_range ((mpirank + 1) * 11 / mpisize - 1) (by unfold int_range; omega)]

/-- Membership in the range of a rank, without the divisions: tree `t` is in
the range of rank `r` exactly when `r * 11 < (t + 1) * P ≤ (r + 1) * 11`. -/
theorem in_tree_range_iff (r P t : Int) (hr : 0 ≤ r) (hlt : r < P) (hfit : P ≤ 195225786) :
    in_tree_range r P t ↔ r * 11 < (t + 1) * P ∧ (t + 1) * P ≤ (r + 1) * 11 := by
  unfold in_tree_range
  rw [t8_basic_partitioned_exact r P hr hlt hfit]
  simp only
  have hP0 : 0 < P := by omega
  have h1 : r * 11 / P ≤ t ↔ r * 11 < (t + 1) * P := by
    rw [← Int.lt_add_one_iff, Int.ediv_lt_iff_lt_mul hP0]
  have h2 : t ≤ (r + 1) * 11 / P - 1 ↔ (t + 1) * P ≤ (r + 1) * 11 := by
    rw [← Int.le_ediv_iff_mul_le hP0]
    omega
  rw [h1, h2]

/-- Claim C4 fails as stated: on 195225787 processes the product
`(mpirank + 1) * num_trees` of the last rank is 2147483657, above the largest
`int`, and the range of the last rank comes out as `[10, -11]`: it does not
end at tree 10, and tree 10 is not in it. -/
theorem tree_ranges_overflow :
    (1 : Int) ≤ 195225787 ∧
    ¬ int_range ((195225786 + 1) * num_trees) ∧
    t8_basic_partitioned (195225787 - 1) 195225787 = (10, -11) ∧
    (t8_basic_partitioned (195225787 - 1) 195225787).2 ≠ num_trees - 1 ∧
    ¬ in_tree_range (195225787 - 1) 195225787 10 := by
  decide

/-- Claim C4, as the code has it: for every process count `P` from 1 to
195225786, up to which `(r + 1) * num_trees` is an `int`, the ranges
`[first_tree(r), last_tree(r)]` of `t8_basic_partitioned` partition the 11
trees: the range of rank 0 starts at tree 0, the range of rank `P - 1` ends at
tree 10, the range of rank `r + 1` starts right after the end of the range of
rank `r`, the range of every rank lies in `[0, 10]` and is empty at most by
`last_tree = first_tree - 1`, and every tree of `[0, 11)` lies in the range
of exactly one rank. -/
theorem tree_ranges_partition (P : Int) (hP : 1 ≤ P) (hfit : P ≤ 195225786) :
    (t8_basic_partitioned 0 P).1 = 0 ∧
    (t8_basic_partitioned (P - 1) P).2 = num_trees - 1 ∧
    (∀ r : Int, 0 ≤ r → r < P - 1 →
      (t8_basic_partitioned (r + 1) P).1 = (t8_basic_partitioned r P).2 + 1) ∧
    (∀ r : Int, 0 ≤ r → r < P →
      0 ≤ (t8_basic_partitioned r P).1 ∧ (t8_basic_partitioned r P).2 ≤ num_trees - 1 ∧
      (t8_basic_partitioned r P).1 ≤ (t8_basic_partitioned r P).2 + 1) ∧
    (∀ t : Int, 0 ≤ t → t < num_trees →
      ∃! r : Int, (0 ≤ r ∧ r < P) ∧ in_tree_range r P t) := by
  have hP0 : 0 < P := by omega
  refine ⟨?_, ?_, ?_, ?_, ?_⟩
  · rw [t8_basic_partitioned_exact 0 P (by omega) (by omega) hfit]
    simp
  · rw [t8_basic_partitioned_exact (P - 1) P (by omega) (by omega) hfit]
    simp only [Int.sub_add_cancel, num_trees]
    rw [Int.mul_ediv_cancel_left _ (by omega)]
  · intro r hr0 hr
    rw [t8_basic_partitioned_exact (r + 1) P (by omega) (by omega) hfit,
      t8_basic_partitioned_exact r P hr0 (by omega) hfit]
    simp
  · intro r hr0 hr
    rw [t8_basic_partitioned_exact r P hr0 hr hfit]
    simp only [num_trees]
    have b1 : 0 ≤ r * 11 / P := Int.ediv_nonneg (by omega) (by omega)
    have b2 : (r + 1) * 11 / P ≤ 11 := by
      have : (r + 1) * 11 / P < 11 + 1 := by
        rw [Int.ediv_lt_iff_lt_mul hP0]
        omega
      omega
    have b3 : r * 11 / P ≤ (r + 1) * 11 / P := Int.ediv_le_ediv hP0 (by omega)
    omega
  · intro t ht0 ht
    unfold num_trees at ht
    have hM1 : 1 * P ≤ (t + 1) * P := Int.mul_le_mul_of_nonneg_right (by omega) (by omega)
    have hM2 : (t + 1) * P ≤ 11 * P := Int.mul_le_mul_of_nonneg_right (by omega) (by omega)
    generalize hM : (t + 1) * P = M at hM1 hM2
    refine ⟨(M - 1) / 11, ⟨⟨by omega, by omega⟩, ?_⟩, ?_⟩
    · rw [in_tree_range_iff _ _ _ (by omega) (by omega) hfit, hM]
      omega
    · rintro r ⟨⟨hr0, hrP⟩, hin⟩
      rw [in_tree_range_iff _ _ _ hr0 hrP hfit, hM] at hin
      omega

/-- Claim C4, amended, on 4 processes, where the ranges are `[0,1]`, `[2,4]`,
`[5,7]` and `[8,10]`. -/
theorem tree_ranges_partition_witness :
    (1 : Int) ≤ 4 ∧ (4 : Int) ≤ 195225786 ∧ (t8_basic_partitioned 0 4).1 = 0 ∧
      (t8_basic_partitioned (4 - 1) 4).2 = num_trees - 1 :=
  ⟨by decide, by decide, (tree_ranges_partition 4 (by decide) (by decide)).1,
    (tree_ranges_partition 4 (by decide) (by decide)).2.1⟩

/-! ## The offset table of `t8_basic_partition` -/

/-- A load of entry 2 sees the entry whatever follows the first cells. -/
theorem offsets_load_append (pre post : Offsets) (n : Int) (h : pre.get? 2 = some (some n)) :
    offsets_load (pre ++ post) 2 = some n := by
  unfold offsets_load
  have h2 : 2 < pre.length := by
    rw [List.get?_eq_getElem?] at h
    exact (List.getElem?_eq_some_iff.mp h).1
  rw [List.get?_eq_getElem?, List.getElem?_append_left h2, ← List.get?_eq_getElem?, h]

/-- A store to the first cell behind `pre` succeeds and changes that cell only. -/
theorem offsets_store_append (pre post : Offsets) (c : Option Int) (n : Int) :
    offsets_store (pre ++ c :: post) pre.length n = some ((pre ++ [some n]) ++ post) := by
  unfold offsets_store
  simp

/-- The loop, entered with the counter at the first of `j` unwritten cells that
end the block, ends and has set each of them to the value of entry 2. -/
theorem t8_basic_partition_loop_fills (mpisize : Nat) (n : Int) (j : Nat) :
    ∀ (pre : Offsets), pre.get? 2 = some (some n) → pre.length + j = mpisize + 1 →
      t8_basic_partition_loop mpisize pre.length (pre ++ List.replicate j none)
        = some (pre ++ List.replicate j (some n)) := by
  induction j with
  | zero =>
    intro pre _ hlen
    rw [t8_basic_partition_loop]
    simp
    omega
  | succ j ih =>
    intro pre h2 hlen
    rw [t8_basic_partition_loop]
    have hle : pre.length ≤ mpisize := by omega
    simp only [hle, if_true]
    rw [offsets_load_append _ _ _ h2]
    simp only [List.replicate_succ]
    rw [offsets_store_append]
    simp only
    have hlen1 : (pre ++ [some n]).length = pre.length + 1 := by simp
    have h21 : (pre ++ [some n]).get? 2 = some (some n) := by
      have h3 : 2 < pre.length := by
        rw [List.get?_eq_getElem?] at h2
        exact (List.getElem?_eq_some_iff.mp h2).1
      rw [List.get?_eq_getElem?, List.getElem?_append_left h3, ← List.get?_eq_getElem?, h2]
    have := ih (pre ++ [some n]) h21 (by rw [hlen1]; omega)
    rw [hlen1] at this
    rw [this]
    simp

/-- On two or more processes `t8_basic_partition` ends without a fault and the
table is `0, num_trees / 2, num_trees, ..., num_trees`. -/
theorem t8_basic_partition_closed_form (k : Nat) (n : Int) :
    t8_basic_partition (k + 2) n
      = some (some 0 :: some (Int.tdiv n 2) :: List.replicate (k + 1) (some n)) := by
  unfold t8_basic_partition SC_SHMEM_ALLOC
  have e : List.replicate (k + 2 + 1) (none : Option Int)
      = none :: none :: none :: List.replicate k none := by
    simp [List.replicate_succ]
  rw [e]
  simp only [offsets_store, List.length_cons, List.set_cons_zero, List.set_cons_succ]
  simp only [Nat.zero_lt_succ, if_true, Nat.succ_lt_succ_iff]
  have := t8_basic_partition_loop_fills (k + 2) n k [some 0, some (Int.tdiv n 2), some n] rfl
    (by simp; omega)
  simpa [List.replicate_succ] using this

/-- Every entry from index 2 on of the table of `t8_basic_partition_closed_form`
holds the number of trees. -/
theorem offsets_load_tail (a b : Option Int) (k i : Nat) (n : Int) (hi : i ≤ k) :
    offsets_load (a :: b :: List.replicate (k + 1) (some n)) (i + 2) = some n := by
  unfold offsets_load
  have : (a :: b :: List.replicate (k + 1) (some n)).get? (i + 2) = some (some n) := by
    simp [List.getElem?_replicate]
    omega
  rw [this]

/-- On `k + 2` processes, two or more, and for every tree count `n ≥ 0`, the
table of `t8_basic_partition` has `k + 3` written entries, starts with 0, ends
with `n` and does not decrease; it gives `n / 2` trees to process 0, the other
`n - n / 2` trees to process 1 and no tree to any process after these. -/
theorem t8_basic_partition_two_or_more (k : Nat) (n : Int) (hn : 0 ≤ n) :
    ∃ offsets : Offsets, t8_basic_partition (k + 2) n = some offsets ∧
      offsets.length = k + 2 + 1 ∧
      offsets_load offsets 0 = some 0 ∧
      offsets_load offsets (k + 2) = some n ∧
      (∀ i : Nat, i < k + 2 → ∃ a b : Int, offsets_load offsets i = some a ∧
        offsets_load offsets (i + 1) = some b ∧ a ≤ b) ∧
      offsets_count offsets 0 = some (Int.tdiv n 2) ∧
      offsets_count offsets 1 = some (n - Int.tdiv n 2) ∧
      (∀ r : Nat, 2 ≤ r → r < k + 2 → offsets_count offsets r = some 0) := by
  refine ⟨_, t8_basic_partition_closed_form k n, ?_, ?_, ?_, ?_, ?_, ?_, ?_⟩
  · simp
  · simp [offsets_load]
  · exact offsets_load_tail _ _ k k n (Nat.le_refl k)
  · intro i hi
    have hhalf : Int.tdiv n 2 = n / 2 := Int.tdiv_eq_ediv hn (by decide)
    match i, hi with
    | 0, _ => exact ⟨0, Int.tdiv n 2, by simp [offsets_load], by simp [offsets_load], by omega⟩
    | 1, _ =>
      exact ⟨Int.tdiv n 2, n, by simp [offsets_load], offsets_load_tail _ _ k 0 n (Nat.zero_le k),
        by omega⟩
    | j + 2, hj =>
      exact ⟨n, n, offsets_load_tail _ _ k j n (by omega),
        offsets_load_tail _ _ k (j + 1) n (by omega), Int.le_refl n⟩
  · simp [offsets_count, offsets_load]
  · have := offsets_load_tail (some 0) (some (Int.tdiv n 2)) k 0 n (Nat.zero_le k)
    simp only [Nat.zero_add] at this
    simp only [offsets_count, this]
    simp [offsets_load]
  · intro r h2 hr
    obtain ⟨j, rfl⟩ : ∃ j, r = j + 2 := ⟨r - 2, by omega⟩
    have e1 := offsets_load_tail (some 0) (some (Int.tdiv n 2)) k j n (by omega)
    have e2 := offsets_load_tail (some 0) (some (Int.tdiv n 2)) k (j + 1) n (by omega)
    simp only [offsets_count, e1, e2]
    simp

/-- Claim C5 on one process: the block has 2 entries, the stores to entries 0
and 1 leave `0, 0` for a mesh of one tree, and the store `offsets[2]` falls
outside the block, for every tree count; no table with `offsets[1] = n`
comes out. -/
theorem t8_basic_partition_one_process_faults :
    (∀ n : Int, t8_basic_partition 1 n = none) ∧
    offsets_store (SC_SHMEM_ALLOC (1 + 1)) 0 0 = some [some 0, none] ∧
    offsets_store [some 0, none] 1 (Int.tdiv 1 2) = some [some 0, some 0] ∧
    offsets_store [some 0, some 0] 2 1 = none := by
  refine ⟨?_, by decide, by decide, by decide⟩
  intro n
  simp [t8_basic_partition, offsets_store, SC_SHMEM_ALLOC]

/-- Claim C8 on two processes and a mesh of two trees: the table is `0, 1, 2`,
so process 0 gets one of the two trees and process 1, whose range should be
empty, gets the other. -/
theorem t8_basic_partition_splits_in_halves :
    t8_basic_partition 2 2 = some [some 0, some 1, some 2] ∧
    offsets_count [some 0, some 1, some 2] 0 = some 1 ∧
    offsets_count [some 0, some 1, some 2] 1 = some 1 := by
  refine ⟨?_, by decide, by decide⟩
  exact t8_basic_partition_closed_form 0 2

end T8Basic
